import Mathlib

/-!
Verification development for the canonical-kubernetes-release-ci repository.

The Python sources under scripts/ are shallowly embedded as Lean definitions:
  - scripts/util/charmhub.py : RevisionMatrix, Bundle
  - scripts/util/sqa.py      : TestPlanInstanceStatus, the test-status resolver,
                               start_release_test
  - scripts/charm_release.py : TrackState, ensure_track_state, process_track
  - scripts/promote_tracks.py: create_proposal

External effects (weebl CLI calls, the Charmhub HTTP API, charmcraft and
snapcraft invocations) are modelled as environment records of pure functions:
each environment field stands for the response of one external command.
Python exceptions are modelled with Except over an explicit error type.
Python dictionaries are modelled as insertion-ordered association lists
(assignment updates in place, otherwise appends), and Python sets as
deduplicated lists compared up to membership.
-/

/-- Python exceptions raised by the embedded code paths. -/
inductive Exc where
  | sqaFailure (msg : String)
  | charmcraftError (msg : String)
  | httpError (msg : String)
  | indexError
  | stopIteration
  | valueError
  | keyError
deriving DecidableEq, Repr

/-- Truthiness of the result of a Python `dict.get` for revision values:
the outer `none` is a missing key, an inner `none` is a stored Python `None`,
and a stored string is truthy iff it is non-empty. -/
def pyTruthy : Option (Option String) → Bool
  | some (some s) => !s.isEmpty
  | _ => false

/-- Association-list lookup modelling Python `dict.get(key)` (first binding wins;
lists built by `set` below have unique keys). -/
def alistGet {α β : Type} [DecidableEq α] : List (α × β) → α → Option β
  | [], _ => none
  | (k, v) :: rest, key => if k = key then some v else alistGet rest key

/-- Association-list assignment modelling Python `dict[key] = value`:
updates the first binding in place, otherwise appends (insertion order). -/
def alistSet {α β : Type} [DecidableEq α] : List (α × β) → α → β → List (α × β)
  | [], key, value => [(key, value)]
  | (k, v) :: rest, key, value =>
      if k = key then (k, value) :: rest else (k, v) :: alistSet rest key value

/-- Python set equality for sets represented as lists: equal membership. -/
def sameSet (l1 l2 : List String) : Bool :=
  l1.all (l2.contains ·) && l2.all (l1.contains ·)

/-- Stable insertion of an element into a list sorted by `le`. -/
def insertSorted {α : Type} (le : α → α → Bool) (x : α) : List α → List α
  | [] => [x]
  | y :: ys => if le x y then x :: y :: ys else y :: insertSorted le x ys

/-- Python `sorted`: a stable sort by the given boolean `le` relation. -/
def pySorted {α : Type} (le : α → α → Bool) (l : List α) : List α :=
  l.foldr (insertSorted le) []

/-- Lexicographic comparison of char lists by code point (Python `str` order). -/
def charListLe : List Char → List Char → Bool
  | [], _ => true
  | _ :: _, [] => false
  | x :: xs, y :: ys =>
      if x.val < y.val then true
      else if y.val < x.val then false
      else charListLe xs ys

/-- Python `a <= b` on strings, as Python compares them (computable by the kernel). -/
def pyStrLe (a b : String) : Bool := charListLe a.data b.data

/-- Python `a < b` on strings, as Python compares them. -/
def pyStrLt (a b : String) : Bool := pyStrLe a b && !(a = b)

/-- Python `random.choice(seq)`: raises IndexError on an empty sequence,
otherwise returns some element; the element picked is made explicit through
the `choose` parameter so that every possible draw can be reasoned about. -/
def randomChoice {α : Type} (l : List α) (choose : Nat) : Except Exc α :=
  match l with
  | [] => .error .indexError
  | x :: xs => .ok ((x :: xs).getD (choose % (x :: xs).length) x)

/-! ## scripts/util/charmhub.py -/

/-- Source `RevisionMatrix`: mapping (arch, base) → revision.  A binding with value
`none` models a stored Python `None`; an absent binding models an absent key. -/
structure RevisionMatrix where
  data : List ((String × String) × Option String)
deriving DecidableEq, Repr

instance : Inhabited RevisionMatrix := ⟨⟨[]⟩⟩

/-- Source `RevisionMatrix.set(arch, base, revision)`. -/
def RevisionMatrix.set (m : RevisionMatrix) (arch base : String) (revision : Option String) : RevisionMatrix :=
  ⟨alistSet m.data (arch, base) revision⟩

/-- Source `RevisionMatrix.get(arch, base)` (Python `dict.get`). -/
def RevisionMatrix.get (m : RevisionMatrix) (arch base : String) : Option (Option String) :=
  alistGet m.data (arch, base)

/-- Source `RevisionMatrix.get_archs()`: the set of first key components. -/
def RevisionMatrix.get_archs (m : RevisionMatrix) : List String :=
  (m.data.map (fun p => p.1.1)).dedup

/-- Source `RevisionMatrix.get_bases()`: the set of second key components. -/
def RevisionMatrix.get_bases (m : RevisionMatrix) : List String :=
  (m.data.map (fun p => p.1.2)).dedup

/-- Source `RevisionMatrix.__eq__`: `dict(self.data) == dict(other.data)`, i.e. the
two key→value mappings agree. -/
def RevisionMatrix.beq (m other : RevisionMatrix) : Bool :=
  m.data.all (fun p => other.get p.1.1 p.1.2 = some p.2)
    && other.data.all (fun p => m.get p.1.1 p.1.2 = some p.2)

/-- Source `RevisionMatrix.__bool__`: False if there are no keys, else True iff every
stored value `is not None`.  (Note: an empty-string value is not `None`.) -/
def RevisionMatrix.toBool (m : RevisionMatrix) : Bool :=
  if m.data.isEmpty then false
  else m.data.all (fun p => p.2 ≠ none)

/-- Source `Bundle`: name plus mapping component-charm → RevisionMatrix (a stored
`none` models a Python `None` value). -/
structure Bundle where
  name : String
  data : List (String × Option RevisionMatrix)
deriving DecidableEq, Repr

/-- Source `Bundle.set(charm, revision_matrix)`. -/
def Bundle.set (b : Bundle) (charm : String) (matrix : Option RevisionMatrix) : Bundle :=
  ⟨b.name, alistSet b.data charm matrix⟩

/-- Python `list(self.data.values())` after the None-check of `is_testable`:
the component matrices in insertion order. -/
def Bundle.matrices (b : Bundle) : List RevisionMatrix :=
  b.data.filterMap (fun p => p.2)

/-- The matrix drawn by `random.choice(list(self.data.values()))` inside
`is_testable`, with the draw made explicit (the list is non-empty whenever
this is reached). -/
def Bundle.item (b : Bundle) (choose : Nat) : RevisionMatrix :=
  b.matrices.getD (choose % b.matrices.length) default

/-- Source `Bundle.is_testable()`.  `choose` makes the `random.choice` draw explicit. -/
def Bundle.is_testable (b : Bundle) (choose : Nat) : Bool :=
  if b.data.isEmpty || b.data.any (fun p => p.2 = none) then false
  else
    let item := b.item choose
    let bases := item.get_bases
    let archs := item.get_archs
    b.matrices.all (fun rm =>
      sameSet rm.get_bases bases && sameSet rm.get_archs archs
        && bases.all (fun base => archs.all (fun arch =>
             !(pyTruthy (item.get arch base)) || pyTruthy (rm.get arch base))))

/-- Source `Bundle.get_archs()`: `random.choice` over the component matrices inside a
`try` whose handler catches only StopIteration, so the IndexError raised on an
empty bundle escapes and the `return set()` fallback stays unreachable. -/
def Bundle.get_archsE (b : Bundle) (choose : Nat) : Except Exc (List String) :=
  match randomChoice (b.data.map (fun p => p.2)) choose with
  | .ok (some item) => .ok item.get_archs
  | .ok none => .error .indexError
  | .error .stopIteration => .ok []
  | .error e => .error e

/-- Source `Bundle.get_bases()`: same structure as `get_archs`. -/
def Bundle.get_basesE (b : Bundle) (choose : Nat) : Except Exc (List String) :=
  match randomChoice (b.data.map (fun p => p.2)) choose with
  | .ok (some item) => .ok item.get_bases
  | .ok none => .error .indexError
  | .error .stopIteration => .ok []
  | .error e => .error e

/-- Python `charm.replace("-", "_")`: the single-character replacement used to build
revision variable names. -/
def dashToUnderscore (s : String) : String :=
  String.mk (s.data.map (fun c => if c = '-' then '_' else c))

/-- Source `Bundle.get_revisions(arch, base)`: component → stored revision value.
(A `None` matrix would raise AttributeError in Python; this is only called on
testable bundles, where no matrix is `None`.) -/
def Bundle.get_revisions (b : Bundle) (arch base : String) : List (String × Option (Option String)) :=
  b.data.map (fun p =>
    (dashToUnderscore p.1 ++ "_revision",
     match p.2 with
     | some m => m.get arch base
     | none => none))

/-- Source `Bundle.get_version(arch, base)`: bundle name extended, for each charm in
sorted order, with `-{charm}-{revision}`; `None` when there are no charms, a
falsy matrix, or a falsy revision value. -/
def Bundle.get_version (b : Bundle) (arch base : String) : Option String :=
  let charms := pySorted pyStrLe (b.data.map (fun p => p.1))
  if charms.isEmpty then none
  else
    charms.foldl
      (fun acc charm =>
        match acc with
        | none => none
        | some version =>
          match alistGet b.data charm with
          | some (some rm) =>
            if rm.toBool then
              match rm.get arch base with
              | some (some r) => if r.isEmpty then none else some (version ++ "-" ++ charm ++ "-" ++ r)
              | _ => none
            else none
          | _ => none)
      (some b.name)

/-! ## scripts/util/sqa.py -/

/-- Source `TestPlanInstanceStatus`. -/
inductive TestPlanInstanceStatus where
  | IN_PROGRESS | SKIPPED | ERROR | ABORTED | FAILURE | SUCCESS | UNKNOWN
  | PASSED | FAILED | RELEASED
deriving DecidableEq, Repr

/-- The string value of each status member. -/
def TestPlanInstanceStatus.value : TestPlanInstanceStatus → String
  | .IN_PROGRESS => "In Progress"
  | .SKIPPED => "skipped"
  | .ERROR => "error"
  | .ABORTED => "aborted"
  | .FAILURE => "failure"
  | .SUCCESS => "success"
  | .UNKNOWN => "unknown"
  | .PASSED => "Passed"
  | .FAILED => "Failed"
  | .RELEASED => "Released"

/-- Property `in_progress`. -/
def TestPlanInstanceStatus.in_progress (s : TestPlanInstanceStatus) : Bool :=
  s = .IN_PROGRESS

/-- Property `succeeded`. -/
def TestPlanInstanceStatus.succeeded (s : TestPlanInstanceStatus) : Bool :=
  s = .PASSED

/-- Property `failed` (`self in [FAILED]`). -/
def TestPlanInstanceStatus.failed (s : TestPlanInstanceStatus) : Bool :=
  s = .FAILED

/-- Source `ProductVersion` (only the `uuid` field is consumed by the embedded code). -/
structure ProductVersion where
  uuid : String
deriving DecidableEq, Repr

/-- Source `Addon` (only the `uuid` field is consumed). -/
structure Addon where
  uuid : String
deriving DecidableEq, Repr

/-- Source `TestPlanInstance` (only the `uuid` field is consumed). -/
structure TestPlanInstance where
  uuid : String
deriving DecidableEq, Repr

/-- Environment of external SQA (weebl) commands.  Each field is the parsed
response of one CLI invocation; the `add` commands may fail (non-zero exit →
SQAFailure), the `list`/`show` queries are taken in their successful form. -/
structure SQAEnv where
  productVersionList : String → String → List ProductVersion
  testPlanInstanceList : String → TestPlanInstanceStatus → List String
  productVersionAdd : String → String → String → String → Except Exc (List ProductVersion)
  addonShow : String → Except Exc (List Addon)
  addonAdd : String → Except Exc (List Addon)
  testPlanInstanceAdd : String → String → Nat → Except Exc (List TestPlanInstance)

/-- Source `_product_versions(channel, version)`. -/
def SQAEnv.product_versions (env : SQAEnv) (channel version : String) : List ProductVersion :=
  env.productVersionList channel version

/-- Source `_test_plan_instances(productversion_uuid, status)`. -/
def SQAEnv.test_plan_instances (env : SQAEnv) (productversion_uuid : String)
    (status : TestPlanInstanceStatus) : List String :=
  env.testPlanInstanceList productversion_uuid status

/-- Source `_joined_test_plan_instances(product_versions, status)`. -/
def joined_test_plan_instances (env : SQAEnv) (product_versions : List ProductVersion)
    (status : TestPlanInstanceStatus) : List String :=
  product_versions.flatMap (fun pv => env.test_plan_instances pv.uuid status)

/-- Source `current_test_plan_instance_status(channel, version)`: none when no product
version matches; otherwise the first non-empty tier among Passed, In Progress,
Failed; none when every tier is empty. -/
def current_test_plan_instance_status (env : SQAEnv) (channel version : String) :
    Option TestPlanInstanceStatus :=
  let product_versions := env.product_versions channel version
  if product_versions.isEmpty then none
  else if !(joined_test_plan_instances env product_versions .PASSED).isEmpty then
    some .PASSED
  else if !(joined_test_plan_instances env product_versions .IN_PROGRESS).isEmpty then
    some .IN_PROGRESS
  else if !(joined_test_plan_instances env product_versions .FAILED).isEmpty then
    some .FAILED
  else none

/-- Source `_create_product_version(channel, base, arch, version)`. -/
def create_product_version (env : SQAEnv) (channel base arch version : String) :
    Except Exc ProductVersion :=
  match env.productVersionAdd channel base arch version with
  | .error e => .error e
  | .ok [] => .error (.sqaFailure "no product version returned from create command")
  | .ok [pv] => .ok pv
  | .ok (_ :: _ :: _) => .error (.sqaFailure "Too many product versions from create command")

/-- Source `_get_addon(name)`: an SQAFailure from the show command is treated as
"no addon" (the StopIteration workaround); more than one addon is an error. -/
def get_addon (env : SQAEnv) (name : String) : Except Exc (Option Addon) :=
  match env.addonShow name with
  | .error _ => .ok none
  | .ok [] => .ok none
  | .ok [a] => .ok (some a)
  | .ok (_ :: _ :: _) => .error (.sqaFailure "Too many addons from cshow command")

/-- Source `_create_addon(version, variables)`: reuse the addon named `version` when
present, otherwise render the templates and run the add command.  The template
variables do not influence the returned addon and are not modelled further. -/
def create_addon (env : SQAEnv) (version : String) : Except Exc Addon :=
  match get_addon env version with
  | .error e => .error e
  | .ok (some addon) => .ok addon
  | .ok none =>
    match env.addonAdd version with
    | .error e => .error e
    | .ok [] => .error (.sqaFailure "no addon returned from create command")
    | .ok [a] => .ok a
    | .ok (_ :: _ :: _) => .error (.sqaFailure "Too many addons from create command")

/-- Source `_create_test_plan_instance(product_version_uuid, addon_uuid, priority)`. -/
def create_test_plan_instance (env : SQAEnv) (product_version_uuid addon_uuid : String)
    (priority : Nat) : Except Exc TestPlanInstance :=
  match env.testPlanInstanceAdd product_version_uuid addon_uuid priority with
  | .error e => .error e
  | .ok [] => .error (.sqaFailure "no test plan instance returned from create command")
  | .ok [t] => .ok t
  | .ok (_ :: _ :: _) => .error (.sqaFailure "Too many test plan instance from create command")

/-- Source `start_release_test(channel, base, arch, revisions, version, priority)`:
reuse the unique matching product version (more than one is an SQAFailure,
none means create one), ensure the addon, create the test plan instance. -/
def start_release_test (env : SQAEnv) (channel base arch : String)
    (revisions : List (String × Option (Option String))) (version : String)
    (priority : Nat) : Except Exc Unit :=
  let product_versions := env.product_versions channel version
  let pvRes : Except Exc ProductVersion :=
    if product_versions.isEmpty then create_product_version env channel base arch version
    else if product_versions.length > 1 then
      .error (.sqaFailure ("the (" ++ channel ++ ", " ++ base ++ ", " ++ arch
        ++ ") is supposed to have only one product version for version " ++ version))
    else
      match product_versions with
      | pv :: _ => .ok pv
      | [] => .error (.sqaFailure "unreachable")
  match pvRes with
  | .error e => .error e
  | .ok product_version =>
    match create_addon env version with
    | .error e => .error e
    | .ok addon =>
      match create_test_plan_instance env product_version.uuid addon.uuid priority with
      | .error _e => .error _e
      | .ok _ => .ok ()

/-! ## scripts/charm_release.py -/

/-- Source `TrackState`: version → effective test status, insertion ordered. -/
structure TrackState where
  state_map : List (String × TestPlanInstanceStatus)
deriving DecidableEq, Repr

/-- Source `TrackState.set_state(version, state)`. -/
def TrackState.set_state (t : TrackState) (version : String)
    (state : TestPlanInstanceStatus) : TrackState :=
  ⟨alistSet t.state_map version state⟩

/-- Source `TrackState.failed`: any cell failed. -/
def TrackState.failed (t : TrackState) : Bool :=
  t.state_map.any (fun p => p.2.failed)

/-- Source `TrackState.succeeded`: all cells succeeded. -/
def TrackState.succeeded (t : TrackState) : Bool :=
  t.state_map.all (fun p => p.2.succeeded)

/-- Source `TrackState.in_progress`: False when failed, else any cell in progress. -/
def TrackState.in_progress (t : TrackState) : Bool :=
  if t.failed then false
  else t.state_map.any (fun p => p.2.in_progress)

/-- Source `ProcessState`. -/
inductive ProcessState where
  | PROCESS_SUCCESS | PROCESS_IN_PROGRESS | PROCESS_FAILED
  | PROCESS_CI_FAILED | PROCESS_UNCHANGED
deriving DecidableEq, Repr

/-- One performed `sqa.start_release_test` invocation, recorded with its
arguments. -/
structure StartCall where
  channel : String
  base : String
  arch : String
  revisions : List (String × Option (Option String))
  version : String
  priority : Nat
deriving DecidableEq, Repr

/-- The body of `ensure_track_state` for one (arch, base) cell.  The
accumulator carries the track state, the start calls performed so far and the
priority counter. -/
def ensure_cell (env : SQAEnv) (channel : String) (bundle : Bundle) (dry_run : Bool)
    (arch : String) (track_state : TrackState) (calls : List StartCall)
    (priority : Nat) (base : String) :
    Except Exc (TrackState × List StartCall × Nat) :=
  match bundle.get_version arch base with
  | none => .ok (track_state, calls, priority)
  | some version =>
    if version.isEmpty then .ok (track_state, calls, priority)
    else
      match current_test_plan_instance_status env channel version with
      | none =>
        if dry_run then
          .ok (track_state.set_state version .IN_PROGRESS, calls, priority)
        else
          match start_release_test env channel base arch
              (bundle.get_revisions arch base) version priority with
          | .error e => .error e
          | .ok () =>
            .ok (track_state.set_state version .IN_PROGRESS,
                 calls ++ [⟨channel, base, arch, bundle.get_revisions arch base,
                           version, priority⟩],
                 priority + 1)
      | some status => .ok (track_state.set_state version status, calls, priority)

/-- The inner `for base in bundle.get_bases()` loop of `ensure_track_state`. -/
def ensure_bases (env : SQAEnv) (channel : String) (bundle : Bundle) (dry_run : Bool)
    (arch : String) (bases : List String) (track_state : TrackState)
    (calls : List StartCall) (priority : Nat) :
    Except Exc (TrackState × List StartCall × Nat) :=
  match bases with
  | [] => .ok (track_state, calls, priority)
  | base :: rest =>
    match ensure_cell env channel bundle dry_run arch track_state calls priority base with
    | .error e => .error e
    | .ok (st2, calls2, p2) =>
      ensure_bases env channel bundle dry_run arch rest st2 calls2 p2

/-- The outer `for arch in bundle.get_archs()` loop: every arch other than
amd64 is skipped; `bundle.get_bases()` is re-evaluated per arch. -/
def ensure_archs (env : SQAEnv) (channel : String) (bundle : Bundle) (dry_run : Bool)
    (chooseB : Nat) (archs : List String) (track_state : TrackState)
    (calls : List StartCall) (priority : Nat) :
    Except Exc (TrackState × List StartCall × Nat) :=
  match archs with
  | [] => .ok (track_state, calls, priority)
  | arch :: rest =>
    if arch ≠ "amd64" then
      ensure_archs env channel bundle dry_run chooseB rest track_state calls priority
    else
      match bundle.get_basesE chooseB with
      | .error e => .error e
      | .ok bases =>
        match ensure_bases env channel bundle dry_run arch bases track_state calls priority with
        | .error e => .error e
        | .ok (st2, calls2, p2) =>
          ensure_archs env channel bundle dry_run chooseB rest st2 calls2 p2

/-- Source `ensure_track_state(channel, bundle, dry_run)`: also returns the list of
performed `start_release_test` calls.  The priority counter starts at 1. -/
def ensure_track_state (env : SQAEnv) (channel : String) (bundle : Bundle)
    (dry_run : Bool) (chooseA chooseB : Nat) :
    Except Exc (TrackState × List StartCall) :=
  match bundle.get_archsE chooseA with
  | .error e => .error e
  | .ok archs =>
    match ensure_archs env channel bundle dry_run chooseB archs ⟨[]⟩ [] 1 with
    | .error e => .error e
    | .ok (track_state, calls, _) => .ok (track_state, calls)

/-- Environment of external charmhub operations used by `process_track`. -/
structure CharmhubEnv where
  getRevisionMatrix : String → String → Except Exc RevisionMatrix
  promoteCharm : String → String → String → Except Exc Unit

/-- The first loop of `process_track`: fetch candidate and stable matrices per
charm and assemble the k8s-operator bundle together with the
`at_least_one_charm_in_candidate` flag. -/
def build_bundle (chEnv : CharmhubEnv) (bundle_charms : List String)
    (candidate_channel stable_channel : String) : Except Exc (Bundle × Bool) :=
  bundle_charms.foldlM
    (fun (acc : Bundle × Bool) charm => do
      let (bundle, at_least_one) := acc
      let candidate_revision_matrix ← chEnv.getRevisionMatrix charm candidate_channel
      let stable_revision_matrix ← chEnv.getRevisionMatrix charm stable_channel
      if !candidate_revision_matrix.toBool then
        pure (bundle.set charm (some stable_revision_matrix), at_least_one)
      else if candidate_revision_matrix.beq stable_revision_matrix then
        pure (bundle.set charm (some stable_revision_matrix), at_least_one)
      else
        pure (bundle.set charm (some candidate_revision_matrix), true))
    (⟨"k8s-operator", []⟩, false)

/-- Source function `charmhub.promote_charm` for every charm of the bundle, collecting the
performed (charm, from, to) promote calls. -/
def promote_all (chEnv : CharmhubEnv) (bundle_charms : List String)
    (candidate_channel stable_channel : String) :
    Except Exc (List (String × String × String)) :=
  bundle_charms.foldlM
    (fun calls charm => do
      let _ ← chEnv.promoteCharm charm candidate_channel stable_channel
      pure (calls ++ [(charm, candidate_channel, stable_channel)]))
    []

/-- Source `process_track(bundle_charms, track, dry_run)`: returns the outcome
together with the start calls and promote calls performed.  An HTTPError
during matrix fetching and an SQAFailure during evaluation are caught and
mapped to PROCESS_CI_FAILED; the `except charmhub.CharmcraftFailure` clause
names an attribute that does not exist in charmhub.py (which defines
`CharmcraftError`), so a promotion failure escapes the handler chain and is
modelled as a propagated error. -/
def process_track (chEnv : CharmhubEnv) (env : SQAEnv) (chooseT chooseA chooseB : Nat)
    (bundle_charms : List String) (track : String) (dry_run : Bool) :
    Except Exc (ProcessState × List StartCall × List (String × String × String)) :=
  let candidate_channel := track ++ "/candidate"
  let stable_channel := track ++ "/stable"
  match build_bundle chEnv bundle_charms candidate_channel stable_channel with
  | .error (.httpError _) => .ok (.PROCESS_CI_FAILED, [], [])
  | .error e => .error e
  | .ok (k8s_operator_bundle, at_least_one_charm_in_candidate) =>
    if !k8s_operator_bundle.is_testable chooseT then
      .ok (.PROCESS_UNCHANGED, [], [])
    else if !at_least_one_charm_in_candidate then
      .ok (.PROCESS_UNCHANGED, [], [])
    else
      let run : Except Exc (ProcessState × List StartCall × List (String × String × String)) := do
        let (state, calls) ←
          ensure_track_state env candidate_channel k8s_operator_bundle dry_run chooseA chooseB
        if state.succeeded then
          if dry_run then pure (.PROCESS_SUCCESS, calls, [])
          else do
            let promotes ← promote_all chEnv bundle_charms candidate_channel stable_channel
            pure (.PROCESS_SUCCESS, calls, promotes)
        else if state.in_progress then pure (.PROCESS_IN_PROGRESS, calls, [])
        else if state.failed then pure (.PROCESS_FAILED, calls, [])
        else pure (.PROCESS_CI_FAILED, calls, [])
      match run with
      | .error (.sqaFailure _) => .ok (.PROCESS_CI_FAILED, [], [])
      | .error e => .error e
      | .ok r => .ok r

/-! ## scripts/promote_tracks.py -/

/-- Source `list.index` as an Option (`none` models Python's ValueError). -/
def py_index : List String → String → Option Nat
  | [], _ => none
  | y :: ys, x => if y = x then some 0 else (py_index ys x).map (· + 1)

/-- Source `SNAP_NAME` from scripts/util/util.py. -/
def SNAP_NAME : String := "k8s"

/-- Source `SERIES`. -/
def SERIES : List String := ["20.04", "22.04", "24.04"]

/-- Source `IGNORE_TRACKS`. -/
def IGNORE_TRACKS : List String := ["latest"]

/-- Source `RISK_LEVELS`. -/
def RISK_LEVELS : List String := ["edge", "beta", "candidate", "stable"]

/-- Source `NEXT_RISK = RISK_LEVELS[1:] + [None]`. -/
def NEXT_RISK : List (Option String) := [some "beta", some "candidate", some "stable", none]

/-- Source `DAYS_TO_STAY_IN_RISK`. -/
def DAYS_TO_STAY_IN_RISK : List (String × Int) := [("edge", 1), ("beta", 3), ("candidate", 5)]

/-- One element of `snap_info["channel-map"]`, restricted to the fields the
script reads.  `released_at` is an absolute timestamp in seconds (or absent);
`name` is `channel["name"]`, the key of the `channels` dictionary. -/
structure ChannelEntry where
  name : String
  track : String
  risk : String
  architecture : String
  released_at : Option Int
  revision : Int
  version : String
deriving DecidableEq, Repr

/-- Source `channels = {c["channel"]["name"]: c for c in snap_info["channel-map"]}`
(later entries win). -/
def channels_dict (channel_map : List ChannelEntry) : List (String × ChannelEntry) :=
  channel_map.foldl (fun acc c => alistSet acc c.name c) []

/-- Source `channels.get(name, {}).get("revision")`. -/
def chan_revision (channels : List (String × ChannelEntry)) (name : String) : Option Int :=
  (alistGet channels name).map (fun c => c.revision)

/-- Source `channels.get(name, {}).get("version")`. -/
def chan_version (channels : List (String × ChannelEntry)) (name : String) : Option String :=
  (alistGet channels name).map (fun c => c.version)

/-- Source `(now - released_at_date).days` for timestamps in seconds
(Python timedelta days use floor division). -/
def timedelta_days (delta : Int) : Int := Int.fdiv delta 86400

/-- What the `create_proposal` loop body does with one channel entry. -/
inductive PromoteAction where
  | skip | warn | propose
deriving DecidableEq, Repr

/-- The decision taken by the `create_proposal` loop body for one channel
entry: skip (terminal risk, ignored track, or no trigger), warn (SolQA
approval request, no proposal), or propose.  An unknown risk name raises
(ValueError from `RISK_LEVELS.index`, KeyError from the dwell-time table). -/
def promote_action (channels : List (String × ChannelEntry)) (now : Int)
    (ci : ChannelEntry) : Except Exc PromoteAction :=
  let track := ci.track
  let risk := ci.risk
  match py_index RISK_LEVELS risk with
  | none => .error .valueError
  | some i =>
    match NEXT_RISK.getD i none with
    | none => .ok .skip
    | some next_risk =>
      if IGNORE_TRACKS.contains track then .ok .skip
      else
        let purgatoryRes : Except Exc Bool :=
          match ci.released_at with
          | none => .ok false
          | some released_at_date =>
            match alistGet DAYS_TO_STAY_IN_RISK risk with
            | none => .error .keyError
            | some days =>
              .ok (timedelta_days (now - released_at_date) ≥ days
                && (chan_revision channels (track ++ "/" ++ risk)
                      ≠ chan_revision channels (track ++ "/" ++ next_risk)))
        match purgatoryRes with
        | .error e => .error e
        | .ok purgatory_complete =>
          let new_patch_in_edge :=
            risk == "edge"
              && (chan_version channels (track ++ "/" ++ next_risk)
                    ≠ chan_version channels (track ++ "/" ++ risk))
          if purgatory_complete || new_patch_in_edge then
            if next_risk == "stable" && alistGet channels (track ++ "/stable") = none then
              .ok .warn
            else .ok .propose
          else .ok .skip

/-- External collaborators of `create_proposal`: `lp.branch_from_track` and
`gh.arch_to_gh_labels` (modules not part of the reconciliation core). -/
structure PromoteEnv where
  branch_from_track : String → String → String
  arch_to_gh_labels : String → Bool → List String

/-- One proposal dictionary appended by `create_proposal`. -/
structure Proposal where
  branch : String
  upgrade_channels : List (List String)
  revision : Int
  snap_channel : String
  name : String
  runner_labels : List String
  lxd_images : List String
deriving DecidableEq, Repr

/-- The proposal built for a promotable channel entry. -/
def build_proposal (penv : PromoteEnv) (ci : ChannelEntry) (next_risk : String) : Proposal :=
  let start_channel := ci.track ++ "/" ++ ci.risk
  let final_channel := ci.track ++ "/" ++ next_risk
  { branch := penv.branch_from_track SNAP_NAME ci.track
    upgrade_channels := [[final_channel, start_channel]]
    revision := ci.revision
    snap_channel := final_channel
    name := SNAP_NAME ++ "-" ++ ci.track ++ "-" ++ next_risk ++ "-" ++ ci.architecture
    runner_labels := penv.arch_to_gh_labels ci.architecture true
    lxd_images := SERIES.map (fun series => "ubuntu:" ++ series) }

/-- Source `next_risk` of an entry as the loop computes it (meaningful only for risks
on the ladder). -/
def next_risk_of (ci : ChannelEntry) : Option String :=
  match py_index RISK_LEVELS ci.risk with
  | none => none
  | some i => NEXT_RISK.getD i none

/-- The contribution of one channel entry to the proposals list. -/
def proposal_of_entry (penv : PromoteEnv) (channels : List (String × ChannelEntry))
    (now : Int) (ci : ChannelEntry) : Except Exc (Option Proposal) :=
  match promote_action channels now ci with
  | .error e => .error e
  | .ok .propose =>
    match next_risk_of ci with
    | some next_risk => .ok (some (build_proposal penv ci next_risk))
    | none => .ok none
  | .ok _ => .ok none

/-- The contribution of one channel entry to the SolQA approval warnings,
recorded as (revision, architecture, next risk). -/
def warning_of_entry (channels : List (String × ChannelEntry)) (now : Int)
    (ci : ChannelEntry) : Except Exc (Option (Int × String × String)) :=
  match promote_action channels now ci with
  | .error e => .error e
  | .ok .warn =>
    match next_risk_of ci with
    | some next_risk => .ok (some (ci.revision, ci.architecture, next_risk))
    | none => .ok none
  | .ok _ => .ok none

/-- The descending stable ordering of `sorted(..., key=sorter, reverse=True)`
with `sorter = (track, RISK_LEVELS.index(risk))`. -/
def sorter_ge (a b : ChannelEntry) : Bool :=
  let ia := (py_index RISK_LEVELS a.risk).getD RISK_LEVELS.length
  let ib := (py_index RISK_LEVELS b.risk).getD RISK_LEVELS.length
  if a.track = b.track then ib ≤ ia else pyStrLt b.track a.track

/-- Source `create_proposal`: iterate the sorted channel map, accumulating proposals
and approval warnings.  A channel entry whose risk is not on the ladder makes
the whole call raise (as `RISK_LEVELS.index` would). -/
def create_proposal (penv : PromoteEnv) (channel_map : List ChannelEntry) (now : Int) :
    Except Exc (List Proposal × List (Int × String × String)) :=
  if channel_map.any (fun ci => (py_index RISK_LEVELS ci.risk).isNone) then
    .error .valueError
  else
    let channels := channels_dict channel_map
    (pySorted sorter_ge channel_map).foldlM
      (fun (acc : List Proposal × List (Int × String × String)) ci => do
        let (proposals, warnings) := acc
        let p ← proposal_of_entry penv channels now ci
        let w ← warning_of_entry channels now ci
        pure (proposals ++ p.toList, warnings ++ w.toList))
      ([], [])

/-! ## Concrete inputs used by counterexamples and witnesses -/

/-- Input for C1: candidate matrices that only carry arm64 cells. -/
def c1_candidate_matrix : RevisionMatrix := ⟨[(("arm64", "20.04"), some "10")]⟩

/-- Input for C1: the corresponding stable matrices. -/
def c1_stable_matrix : RevisionMatrix := ⟨[(("arm64", "20.04"), some "8")]⟩

/-- Charmhub environment for C1: every candidate query returns the arm64-only
candidate matrix, every other query the stable matrix; promotions succeed. -/
def c1_chEnv : CharmhubEnv :=
  { getRevisionMatrix := fun _charm channel =>
      if channel = "1.32/candidate" then .ok c1_candidate_matrix
      else .ok c1_stable_matrix
    promoteCharm := fun _ _ _ => .ok () }

/-- SQA environment for C1: no product versions, no test plan instances. -/
def c1_sqaEnv : SQAEnv :=
  { productVersionList := fun _ _ => []
    testPlanInstanceList := fun _ _ => []
    productVersionAdd := fun _ _ _ _ => .ok [⟨"pv-1"⟩]
    addonShow := fun _ => .ok []
    addonAdd := fun _ => .ok [⟨"addon-1"⟩]
    testPlanInstanceAdd := fun _ _ _ => .ok [⟨"tpi-1"⟩] }


/-- First component matrix for C3: a full 2×2 grid. -/
def c3_m1 : RevisionMatrix :=
  ⟨[(("amd64", "20.04"), some "1"), (("amd64", "22.04"), some "2"),
    (("arm64", "20.04"), some "3"), (("arm64", "22.04"), some "4")]⟩

/-- Second component matrix for C3: same arch and base sets, but no revision
for the (arm64, 22.04) cell. -/
def c3_m2 : RevisionMatrix :=
  ⟨[(("amd64", "20.04"), some "5"), (("amd64", "22.04"), some "6"),
    (("arm64", "20.04"), some "7")]⟩

/-- Bundle for C3. -/
def c3_bundle : Bundle :=
  ⟨"k8s-operator", [("k8s", some c3_m1), ("k8s-worker", some c3_m2)]⟩


/-- Channel entry for C5: a candidate revision past its dwell time on a track
that has no stable channel yet. -/
def c5_entry : ChannelEntry :=
  { name := "tracky/candidate", track := "tracky", risk := "candidate",
    architecture := "amd64", released_at := some 0, revision := 2,
    version := "v1.31.0" }

/-- Promote environment used by concrete promote-track inputs. -/
def c5_penv : PromoteEnv :=
  { branch_from_track := fun _ _ => "main"
    arch_to_gh_labels := fun _ _ => ["X64", "self-hosted"] }

/-- Edge channel entry for the C5 witness (released exactly one day ago). -/
def c5w_edge : ChannelEntry :=
  { name := "tracky/edge", track := "tracky", risk := "edge",
    architecture := "amd64", released_at := some 0, revision := 2,
    version := "v1.31.0" }

/-- Beta channel entry for the C5 witness: same version as edge, older
revision, so only the dwell-time trigger applies. -/
def c5w_beta : ChannelEntry :=
  { name := "tracky/beta", track := "tracky", risk := "beta",
    architecture := "amd64", released_at := some 0, revision := 1,
    version := "v1.31.0" }

/-- Candidate matrix for C9: one amd64 cell. -/
def c9_candidate_matrix : RevisionMatrix := ⟨[(("amd64", "20.04"), some "10")]⟩

/-- Stable matrix for C9. -/
def c9_stable_matrix : RevisionMatrix := ⟨[(("amd64", "20.04"), some "8")]⟩

/-- Charmhub environment for C9. -/
def c9_chEnv : CharmhubEnv :=
  { getRevisionMatrix := fun _charm channel =>
      if channel = "1.32/candidate" then .ok c9_candidate_matrix
      else .ok c9_stable_matrix
    promoteCharm := fun _ _ _ => .ok () }

/-- SQA environment for C9: every product-version lookup returns two records
where exactly one is expected; no test plan instances exist. -/
def c9_sqaEnv : SQAEnv :=
  { productVersionList := fun _ _ => [⟨"pv-a"⟩, ⟨"pv-b"⟩]
    testPlanInstanceList := fun _ _ => []
    productVersionAdd := fun _ _ _ _ => .ok [⟨"pv-c"⟩]
    addonShow := fun _ => .ok []
    addonAdd := fun _ => .ok [⟨"addon-1"⟩]
    testPlanInstanceAdd := fun _ _ _ => .ok [⟨"tpi-1"⟩] }

/-- The bundle process_track assembles in the C9 scenario. -/
def c9_bundle : Bundle :=
  ⟨"k8s-operator", [("k8s", some c9_candidate_matrix), ("k8s-worker", some c9_candidate_matrix)]⟩

/-- Candidate matrix for the C8 witness: two amd64 cells. -/
def c8_matrix : RevisionMatrix :=
  ⟨[(("amd64", "20.04"), some "10"), (("amd64", "22.04"), some "11")]⟩

/-- Bundle for the C8 witness. -/
def c8_bundle : Bundle :=
  ⟨"k8s-operator", [("k8s", some c8_matrix), ("k8s-worker", some c8_matrix)]⟩

/-- SQA environment for the C8 witness: the 22.04 cell's version already has a
passed test plan instance, the 20.04 cell has none. -/
def c8_env : SQAEnv :=
  { productVersionList := fun _ v =>
      if v = "k8s-operator-k8s-11-k8s-worker-11" then [⟨"pv-22"⟩] else [⟨"pv-20"⟩]
    testPlanInstanceList := fun pv s =>
      if pv = "pv-22" ∧ s = .PASSED then ["tpi-p"] else []
    productVersionAdd := fun _ _ _ _ => .ok [⟨"pv-new"⟩]
    addonShow := fun _ => .ok []
    addonAdd := fun _ => .ok [⟨"addon-1"⟩]
    testPlanInstanceAdd := fun _ _ _ => .ok [⟨"tpi-new"⟩] }

/-- The single start call the C8 witness run performs. -/
def c8_calls : List StartCall :=
  [⟨"1.32/candidate", "20.04", "amd64",
    [("k8s_revision", some (some "10")), ("k8s_worker_revision", some (some "10"))],
    "k8s-operator-k8s-10-k8s-worker-10", 1⟩]

/-- The track state the C8 witness run computes. -/
def c8_st : TrackState :=
  ⟨[("k8s-operator-k8s-10-k8s-worker-10", .IN_PROGRESS),
    ("k8s-operator-k8s-11-k8s-worker-11", .PASSED)]⟩

/-- The priorities of a run of start calls are consecutive from `p`. -/
def PriosFrom : Nat → List StartCall → Prop
  | _, [] => True
  | p, c :: rest => c.priority = p ∧ PriosFrom (p + 1) rest

/-- Every binding of `st` either comes unchanged from `st0` or records what
the resolver answers for that version (IN_PROGRESS when it answers none). -/
def ResolverConsistent (env : SQAEnv) (channel : String) (st0 st : TrackState) : Prop :=
  ∀ v, alistGet st.state_map v = alistGet st0.state_map v
    ∨ ∃ s2, alistGet st.state_map v = some s2
        ∧ ((current_test_plan_instance_status env channel v = none
              ∧ s2 = TestPlanInstanceStatus.IN_PROGRESS)
           ∨ current_test_plan_instance_status env channel v = some s2)

/-- What one reconciled (arch, base) cell guarantees: when its version key is
defined, a start call exists exactly for the resolver answering none (the cell
then recorded IN_PROGRESS), and a resolver status is recorded as-is. -/
def CellSpec (env : SQAEnv) (channel : String) (bundle : Bundle) (st : TrackState)
    (calls : List StartCall) (arch base : String) : Prop :=
  ∀ v, bundle.get_version arch base = some v → v.isEmpty = false →
    (current_test_plan_instance_status env channel v = none →
      (∃ c ∈ calls, c.version = v ∧ c.base = base ∧ c.arch = arch)
      ∧ alistGet st.state_map v = some TestPlanInstanceStatus.IN_PROGRESS)
    ∧ (∀ s, current_test_plan_instance_status env channel v = some s →
        alistGet st.state_map v = some s)

/-! ## Helper lemmas -/

theorem PriosFrom.append {l1 l2 : List StartCall} :
    ∀ {p : Nat}, PriosFrom p l1 → PriosFrom (p + l1.length) l2 → PriosFrom p (l1 ++ l2) := by
  induction l1 with
  | nil => intro p _ h2; simpa using h2
  | cons c rest ih =>
    intro p h1 h2
    obtain ⟨hc, hrest⟩ := h1
    refine ⟨hc, ih hrest ?_⟩
    have harith : p + (c :: rest).length = p + 1 + rest.length := by
      simp
      omega
    rw [harith] at h2
    exact h2

theorem PriosFrom.le_of_mem {l : List StartCall} :
    ∀ {p : Nat}, PriosFrom p l → ∀ c ∈ l, p ≤ c.priority := by
  induction l with
  | nil => intro p _ c hc; simp at hc
  | cons c0 rest ih =>
    intro p h c hc
    obtain ⟨hc0, hrest⟩ := h
    rcases List.mem_cons.mp hc with rfl | hmem
    · omega
    · have := ih hrest c hmem
      omega

theorem PriosFrom.pairwise_lt {l : List StartCall} :
    ∀ {p : Nat}, PriosFrom p l →
      l.Pairwise (fun c1 c2 => c1.priority < c2.priority) := by
  induction l with
  | nil => intro p _; exact List.Pairwise.nil
  | cons c rest ih =>
    intro p h
    obtain ⟨hc, hrest⟩ := h
    refine List.Pairwise.cons ?_ (ih hrest)
    intro c2 hc2
    have := PriosFrom.le_of_mem hrest c2 hc2
    omega

theorem ResolverConsistent.refl (env : SQAEnv) (channel : String) (st : TrackState) :
    ResolverConsistent env channel st st := fun _ => Or.inl rfl

theorem ResolverConsistent.trans {env : SQAEnv} {channel : String}
    {st0 st1 st2 : TrackState} (h01 : ResolverConsistent env channel st0 st1)
    (h12 : ResolverConsistent env channel st1 st2) :
    ResolverConsistent env channel st0 st2 := by
  intro v
  rcases h12 v with h | h
  · rcases h01 v with h0 | h0
    · exact Or.inl (h.trans h0)
    · exact Or.inr (h ▸ h0)
  · exact Or.inr h

theorem CellSpec.mono {env : SQAEnv} {channel : String} {bundle : Bundle}
    {st2 st : TrackState} {calls2 calls : List StartCall} {arch base : String}
    (h : CellSpec env channel bundle st2 calls2 arch base)
    (hcalls : ∀ c ∈ calls2, c ∈ calls)
    (hst : ResolverConsistent env channel st2 st) :
    CellSpec env channel bundle st calls arch base := by
  intro v hv hvne
  obtain ⟨hnone, hsome⟩ := h v hv hvne
  constructor
  · intro hres
    obtain ⟨⟨c, hc, hcprops⟩, hlook⟩ := hnone hres
    refine ⟨⟨c, hcalls c hc, hcprops⟩, ?_⟩
    rcases hst v with heq | ⟨s2, hs2, hcons⟩
    · rw [heq, hlook]
    · rcases hcons with ⟨-, rfl⟩ | hcons
      · exact hs2
      · rw [hres] at hcons
        cases hcons
  · intro s hres
    have hlook := hsome s hres
    rcases hst v with heq | ⟨s2, hs2, hcons⟩
    · rw [heq, hlook]
    · rcases hcons with ⟨hn, -⟩ | hcons
      · rw [hres] at hn
        cases hn
      · rw [hres] at hcons
        injection hcons with h2
        rw [← h2] at hs2
        exact hs2

theorem next_risk_cases (ci : ChannelEntry) (next : String)
    (h : next_risk_of ci = some next) :
    (ci.risk = "edge" ∧ next = "beta")
    ∨ (ci.risk = "beta" ∧ next = "candidate")
    ∨ (ci.risk = "candidate" ∧ next = "stable") := by
  by_cases h1 : ci.risk = "edge"
  · simp only [next_risk_of, h1] at h
    simp [py_index, RISK_LEVELS, NEXT_RISK] at h
    exact Or.inl ⟨h1, h.symm⟩
  by_cases h2 : ci.risk = "beta"
  · simp only [next_risk_of, h2] at h
    simp [py_index, RISK_LEVELS, NEXT_RISK] at h
    exact Or.inr (Or.inl ⟨h2, h.symm⟩)
  by_cases h3 : ci.risk = "candidate"
  · simp only [next_risk_of, h3] at h
    simp [py_index, RISK_LEVELS, NEXT_RISK] at h
    exact Or.inr (Or.inr ⟨h3, h.symm⟩)
  by_cases h4 : ci.risk = "stable"
  · simp only [next_risk_of, h4] at h
    simp [py_index, RISK_LEVELS, NEXT_RISK] at h
  · exfalso
    simp only [next_risk_of] at h
    simp [py_index, RISK_LEVELS, NEXT_RISK, Ne.symm h1, Ne.symm h2,
      Ne.symm h3, Ne.symm h4] at h

theorem alistGet_set_same {α β : Type} [DecidableEq α] (l : List (α × β)) (k : α) (v : β) :
    alistGet (alistSet l k v) k = some v := by
  induction l with
  | nil => simp [alistSet, alistGet]
  | cons p rest ih =>
    obtain ⟨pk, pv⟩ := p
    by_cases h : pk = k
    · simp [alistSet, alistGet, h]
    · simpa [alistSet, alistGet, h] using ih

theorem alistGet_set_ne {α β : Type} [DecidableEq α] (l : List (α × β)) (k k2 : α) (v : β)
    (h : k2 ≠ k) : alistGet (alistSet l k v) k2 = alistGet l k2 := by
  induction l with
  | nil => simp [alistSet, alistGet, Ne.symm h]
  | cons p rest ih =>
    obtain ⟨pk, pv⟩ := p
    by_cases hp : pk = k
    · subst hp
      simp [alistSet, alistGet, Ne.symm h]
    · by_cases hp2 : pk = k2
      · subst hp2
        simp [alistSet, alistGet, Ne.symm h, hp]
      · simpa [alistSet, alistGet, hp, hp2] using ih

theorem alistGet_mem {α β : Type} [DecidableEq α] {l : List (α × β)} {k : α} {v : β}
    (h : alistGet l k = some v) : (k, v) ∈ l := by
  induction l with
  | nil => simp [alistGet] at h
  | cons p rest ih =>
    obtain ⟨pk, pv⟩ := p
    by_cases hp : pk = k
    · simp only [alistGet, if_pos hp] at h
      obtain rfl : pv = v := by injection h
      subst hp
      exact List.mem_cons_self _ _
    · simp only [alistGet, if_neg hp] at h
      exact List.mem_cons_of_mem _ (ih h)

theorem mem_matrices_of_mem {b : Bundle} {c : String} {m : RevisionMatrix}
    (h : (c, some m) ∈ b.data) : m ∈ b.matrices := by
  simp only [Bundle.matrices, List.mem_filterMap]
  exact ⟨(c, some m), h, rfl⟩

theorem item_mem (b : Bundle) (choose : Nat) (h : b.matrices ≠ []) :
    b.item choose ∈ b.matrices := by
  unfold Bundle.item
  have hlen : 0 < b.matrices.length := List.length_pos.mpr h
  have hlt : choose % b.matrices.length < b.matrices.length := Nat.mod_lt _ hlen
  rw [List.getD_eq_getElem _ _ hlt]
  exact List.getElem_mem hlt

theorem mem_axes_of_truthy {m : RevisionMatrix} {a b : String}
    (h : pyTruthy (m.get a b) = true) : a ∈ m.get_archs ∧ b ∈ m.get_bases := by
  cases hg : m.get a b with
  | none => rw [hg] at h; simp [pyTruthy] at h
  | some ov =>
    cases ov with
    | none => rw [hg] at h; simp [pyTruthy] at h
    | some s =>
      have hmem := alistGet_mem hg
      constructor
      · simp only [RevisionMatrix.get_archs, List.mem_dedup, List.mem_map]
        exact ⟨((a, b), some s), hmem, rfl⟩
      · simp only [RevisionMatrix.get_bases, List.mem_dedup, List.mem_map]
        exact ⟨((a, b), some s), hmem, rfl⟩

theorem sameSet_iff (l1 l2 : List String) :
    sameSet l1 l2 = true ↔ ∀ a, a ∈ l1 ↔ a ∈ l2 := by
  simp only [sameSet, Bool.and_eq_true, List.all_eq_true]
  constructor
  · rintro ⟨h1, h2⟩ a
    exact ⟨fun ha => List.elem_iff.mp (h1 a ha), fun ha => List.elem_iff.mp (h2 a ha)⟩
  · intro h
    exact ⟨fun a ha => List.elem_iff.mpr ((h a).mp ha),
           fun a ha => List.elem_iff.mpr ((h a).mpr ha)⟩

/-! ## Claim theorems -/

/-- C4: for every non-empty TrackState map, any FAILED cell makes `failed`
true and `in_progress` false; with no FAILED cell and some IN_PROGRESS cell,
`in_progress` is true; with all cells PASSED, `succeeded` is true; and
`failed` and `in_progress` are never both true. -/
theorem c4_track_state_aggregation (t : TrackState) (hne : t.state_map ≠ []) :
    ((∃ p ∈ t.state_map, p.2 = TestPlanInstanceStatus.FAILED) →
        t.failed = true ∧ t.in_progress = false)
    ∧ ((∀ p ∈ t.state_map, p.2 ≠ TestPlanInstanceStatus.FAILED) →
        (∃ p ∈ t.state_map, p.2 = TestPlanInstanceStatus.IN_PROGRESS) →
        t.in_progress = true)
    ∧ ((∀ p ∈ t.state_map, p.2 = TestPlanInstanceStatus.PASSED) → t.succeeded = true)
    ∧ ¬(t.failed = true ∧ t.in_progress = true) := by
  refine ⟨?_, ?_, ?_, ?_⟩
  · rintro ⟨p, hp, hfp⟩
    have hfail : t.failed = true := by
      simp only [TrackState.failed, List.any_eq_true]
      exact ⟨p, hp, by simp [TestPlanInstanceStatus.failed, hfp]⟩
    refine ⟨hfail, ?_⟩
    simp [TrackState.in_progress, hfail]
  · rintro hno ⟨p, hp, hip⟩
    have hfail : t.failed = false := by
      rw [TrackState.failed, List.any_eq_false]
      intro q hq
      simp only [TestPlanInstanceStatus.failed, decide_eq_true_eq]
      exact hno q hq
    simp only [TrackState.in_progress, hfail, if_false, Bool.false_eq_true,
      List.any_eq_true]
    exact ⟨p, hp, by simp [TestPlanInstanceStatus.in_progress, hip]⟩
  · intro hall
    simp only [TrackState.succeeded, List.all_eq_true]
    intro p hp
    simp [TestPlanInstanceStatus.succeeded, hall p hp]
  · rintro ⟨hf, hip⟩
    simp [TrackState.in_progress, hf] at hip

/-- C4 witness: a concrete one-cell FAILED map. -/
theorem c4_track_state_aggregation_witness :
    (TrackState.mk [("v", TestPlanInstanceStatus.FAILED)]).state_map ≠ []
    ∧ ((∃ p ∈ (TrackState.mk [("v", TestPlanInstanceStatus.FAILED)]).state_map,
          p.2 = TestPlanInstanceStatus.FAILED) →
        (TrackState.mk [("v", TestPlanInstanceStatus.FAILED)]).failed = true
          ∧ (TrackState.mk [("v", TestPlanInstanceStatus.FAILED)]).in_progress = false)
    ∧ ¬((TrackState.mk [("v", TestPlanInstanceStatus.FAILED)]).failed = true
        ∧ (TrackState.mk [("v", TestPlanInstanceStatus.FAILED)]).in_progress = true) :=
  ⟨by decide,
   (c4_track_state_aggregation ⟨[("v", TestPlanInstanceStatus.FAILED)]⟩ (by decide)).1,
   (c4_track_state_aggregation ⟨[("v", TestPlanInstanceStatus.FAILED)]⟩ (by decide)).2.2.2⟩

/-- C7 counterexample: a matrix whose single cell stores the empty-string
revision is truthy in the code, although the claim says a matrix with an
empty revision in a cell is not populated. -/
theorem c7_counterexample :
    (RevisionMatrix.mk [(("amd64", "20.04"), some "")]).toBool = true
    ∧ ¬((RevisionMatrix.mk [(("amd64", "20.04"), some "")]).data ≠ []
        ∧ ∀ p ∈ (RevisionMatrix.mk [(("amd64", "20.04"), some "")]).data,
            ∃ s, p.2 = some s ∧ s ≠ "") := by
  refine ⟨by decide, ?_⟩
  rintro ⟨-, hall⟩
  obtain ⟨s, hs, hne⟩ := hall (("amd64", "20.04"), some "") (by decide)
  simp at hs
  exact hne hs.symm

/-- C7 (amended): the truthiness of a RevisionMatrix is true iff it has at
least one recorded cell and no recorded cell stores `None`; an empty-string
revision still counts as populated. -/
theorem c7_matrix_truthiness (m : RevisionMatrix) :
    m.toBool = true ↔ m.data ≠ [] ∧ ∀ p ∈ m.data, p.2 ≠ none := by
  simp only [RevisionMatrix.toBool]
  by_cases h : m.data.isEmpty
  · simp [h, List.isEmpty_iff.mp h]
  · simp only [h, if_false, List.all_eq_true, decide_eq_true_eq]
    have : m.data ≠ [] := by
      intro hnil
      exact h (by simp [hnil])
    simp [this]

/-- C10: on a bundle with no component set, `get_archs` and `get_bases`
always raise (IndexError from `random.choice` on the empty list, which the
StopIteration handler does not catch), for every possible draw; in particular
the `return set()` fallback never yields an empty axis set. -/
theorem c10_empty_bundle_raises (b : Bundle) (h : b.data = []) (choose : Nat) :
    b.get_archsE choose = .error .indexError
    ∧ b.get_basesE choose = .error .indexError
    ∧ b.get_archsE choose ≠ .ok []
    ∧ b.get_basesE choose ≠ .ok [] := by
  simp [Bundle.get_archsE, Bundle.get_basesE, randomChoice, h]

/-- C10 witness: the empty k8s-operator bundle at draw 3. -/
theorem c10_empty_bundle_raises_witness :
    (Bundle.mk "k8s-operator" []).data = []
    ∧ ((Bundle.mk "k8s-operator" []).get_archsE 3 = .error .indexError
       ∧ (Bundle.mk "k8s-operator" []).get_basesE 3 = .error .indexError
       ∧ (Bundle.mk "k8s-operator" []).get_archsE 3 ≠ .ok []
       ∧ (Bundle.mk "k8s-operator" []).get_basesE 3 ≠ .ok []) :=
  ⟨rfl, c10_empty_bundle_raises (Bundle.mk "k8s-operator" []) rfl 3⟩

/-- C1 (code bug, evaluated at the failing input): a track whose candidate
bundle is testable but only carries arm64 cells yields an empty state map, and
the code reports the empty map as succeeded (vacuous `all`) — so
`process_track` returns PROCESS_SUCCESS and performs one promotion per charm,
where the claim (and the spec) require the CI_FAILED outcome with no
promotion. -/
theorem c1_empty_cells_vacuous_success :
    ensure_track_state c1_sqaEnv "1.32/candidate"
        (Bundle.mk "k8s-operator"
          [("k8s", some c1_candidate_matrix), ("k8s-worker", some c1_candidate_matrix)])
        false 0 0 = .ok (⟨[]⟩, [])
    ∧ TrackState.succeeded ⟨[]⟩ = true
    ∧ TrackState.failed ⟨[]⟩ = false
    ∧ TrackState.in_progress ⟨[]⟩ = false
    ∧ process_track c1_chEnv c1_sqaEnv 0 0 0 ["k8s", "k8s-worker"] "1.32" false
        = .ok (.PROCESS_SUCCESS, [],
            [("k8s", "1.32/candidate", "1.32/stable"),
             ("k8s-worker", "1.32/candidate", "1.32/stable")]) := by
  refine ⟨rfl, rfl, rfl, rfl, rfl⟩

/-- C3 counterexample: on a bundle whose two component matrices share the same
arch and base sets but where one cell has a revision in only one component,
`is_testable` answers false when `random.choice` draws the first component and
true when it draws the second — the result depends on the inspected component,
and the true answer violates the claim's condition (c). -/
theorem c3_counterexample :
    c3_bundle.is_testable 0 = false
    ∧ c3_bundle.is_testable 1 = true
    ∧ sameSet c3_m1.get_archs c3_m2.get_archs = true
    ∧ sameSet c3_m1.get_bases c3_m2.get_bases = true
    ∧ pyTruthy (c3_m1.get "arm64" "22.04") = true
    ∧ pyTruthy (c3_m2.get "arm64" "22.04") = false := by
  refine ⟨by decide, by decide, by decide, by decide, by decide, by decide⟩

/-- C3 (amended): `is_testable` returning true (for a given draw) guarantees
(a) at least one component and no missing matrix, (b) pairwise identical arch
and base sets, and (c) full coverage of every cell where the *drawn*
component has a revision — but coverage of cells known only to other
components is not checked, so the verdict may depend on the draw. -/
theorem c3_is_testable_only_if (b : Bundle) (choose : Nat)
    (h : b.is_testable choose = true) :
    (b.data ≠ [] ∧ ∀ p ∈ b.data, p.2 ≠ none)
    ∧ (∀ c1 m1 c2 m2, (c1, some m1) ∈ b.data → (c2, some m2) ∈ b.data →
        sameSet m1.get_archs m2.get_archs = true
          ∧ sameSet m1.get_bases m2.get_bases = true)
    ∧ (∀ arch base, pyTruthy ((b.item choose).get arch base) = true →
        ∀ c m, (c, some m) ∈ b.data → pyTruthy (m.get arch base) = true) := by
  unfold Bundle.is_testable at h
  by_cases hguard : b.data.isEmpty || b.data.any (fun p => p.2 = none)
  · rw [if_pos hguard] at h
    exact absurd h (by simp)
  · rw [if_neg hguard] at h
    simp only [Bool.or_eq_true, not_or] at hguard
    obtain ⟨hne, hnone⟩ := hguard
    have hdata_ne : b.data ≠ [] := by
      intro h0
      exact hne (by simp [h0])
    have hnonone : ∀ p ∈ b.data, p.2 ≠ none := by
      intro p hp hp2
      exact hnone (List.any_eq_true.mpr ⟨p, hp, by simp [hp2]⟩)
    simp only [List.all_eq_true, Bool.and_eq_true, Bool.or_eq_true,
      Bool.not_eq_true'] at h
    refine ⟨⟨hdata_ne, hnonone⟩, ?_, ?_⟩
    · intro c1 m1 c2 m2 h1 h2
      have hm1 := mem_matrices_of_mem h1
      have hm2 := mem_matrices_of_mem h2
      obtain ⟨⟨hb1, ha1⟩, -⟩ := h m1 hm1
      obtain ⟨⟨hb2, ha2⟩, -⟩ := h m2 hm2
      rw [sameSet_iff] at hb1 ha1 hb2 ha2
      refine ⟨?_, ?_⟩
      · rw [sameSet_iff]
        intro a
        rw [ha1 a, ha2 a]
      · rw [sameSet_iff]
        intro a
        rw [hb1 a, hb2 a]
    · intro arch base htruthy c m hm
      obtain ⟨harch, hbase⟩ := mem_axes_of_truthy htruthy
      obtain ⟨-, hcells⟩ := h m (mem_matrices_of_mem hm)
      rcases hcells base hbase arch harch with hfalse | htrue
      · rw [htruthy] at hfalse
        cases hfalse
      · exact htrue

/-- C3 (amended) witness: a bundle whose two components carry an identical
fully-populated matrix is testable for draw 0, so the three necessary
conditions hold for it. -/
theorem c3_is_testable_only_if_witness :
    (Bundle.mk "k8s-operator" [("k8s", some c3_m1), ("k8s-worker", some c3_m1)]).is_testable 0 = true
    ∧ ((Bundle.mk "k8s-operator" [("k8s", some c3_m1), ("k8s-worker", some c3_m1)]).data ≠ []
        ∧ ∀ p ∈ (Bundle.mk "k8s-operator" [("k8s", some c3_m1), ("k8s-worker", some c3_m1)]).data,
            p.2 ≠ none)
    ∧ (∀ c1 m1 c2 m2,
        (c1, some m1) ∈ (Bundle.mk "k8s-operator" [("k8s", some c3_m1), ("k8s-worker", some c3_m1)]).data →
        (c2, some m2) ∈ (Bundle.mk "k8s-operator" [("k8s", some c3_m1), ("k8s-worker", some c3_m1)]).data →
        sameSet m1.get_archs m2.get_archs = true
          ∧ sameSet m1.get_bases m2.get_bases = true) := by
  have h0 : (Bundle.mk "k8s-operator" [("k8s", some c3_m1), ("k8s-worker", some c3_m1)]).is_testable 0 = true := by
    decide
  have := c3_is_testable_only_if
    (Bundle.mk "k8s-operator" [("k8s", some c3_m1), ("k8s-worker", some c3_m1)]) 0 h0
  exact ⟨h0, this.1, this.2.1⟩

/-- C2: the test-status resolver returns none when zero product versions
match; otherwise it returns the first non-empty tier in the precedence order
Passed, In Progress, Failed over the test-plan-instances joined across all
matched product versions, and none when every tier is empty; no other status
is ever returned. -/
theorem c2_resolver_precedence (env : SQAEnv) (channel version : String) :
    (current_test_plan_instance_status env channel version = none
      ↔ (env.product_versions channel version = []
          ∨ (joined_test_plan_instances env (env.product_versions channel version) .PASSED = []
             ∧ joined_test_plan_instances env (env.product_versions channel version) .IN_PROGRESS = []
             ∧ joined_test_plan_instances env (env.product_versions channel version) .FAILED = [])))
    ∧ (current_test_plan_instance_status env channel version = some .PASSED
      ↔ (env.product_versions channel version ≠ []
          ∧ joined_test_plan_instances env (env.product_versions channel version) .PASSED ≠ []))
    ∧ (current_test_plan_instance_status env channel version = some .IN_PROGRESS
      ↔ (env.product_versions channel version ≠ []
          ∧ joined_test_plan_instances env (env.product_versions channel version) .PASSED = []
          ∧ joined_test_plan_instances env (env.product_versions channel version) .IN_PROGRESS ≠ []))
    ∧ (current_test_plan_instance_status env channel version = some .FAILED
      ↔ (env.product_versions channel version ≠ []
          ∧ joined_test_plan_instances env (env.product_versions channel version) .PASSED = []
          ∧ joined_test_plan_instances env (env.product_versions channel version) .IN_PROGRESS = []
          ∧ joined_test_plan_instances env (env.product_versions channel version) .FAILED ≠ []))
    ∧ (∀ s, s ≠ .PASSED → s ≠ .IN_PROGRESS → s ≠ .FAILED →
        current_test_plan_instance_status env channel version ≠ some s) := by
  have hres : current_test_plan_instance_status env channel version
      = (if (env.product_versions channel version).isEmpty then none
         else if !(joined_test_plan_instances env (env.product_versions channel version) .PASSED).isEmpty then
           some .PASSED
         else if !(joined_test_plan_instances env (env.product_versions channel version) .IN_PROGRESS).isEmpty then
           some .IN_PROGRESS
         else if !(joined_test_plan_instances env (env.product_versions channel version) .FAILED).isEmpty then
           some .FAILED
         else none) := rfl
  rw [hres]
  by_cases h0 : env.product_versions channel version = []
  · simp [h0]
  · have h0b : (env.product_versions channel version).isEmpty = false := by
      simpa using h0
    by_cases h1 : joined_test_plan_instances env (env.product_versions channel version) .PASSED = []
    · by_cases h2 : joined_test_plan_instances env (env.product_versions channel version) .IN_PROGRESS = []
      · by_cases h3 : joined_test_plan_instances env (env.product_versions channel version) .FAILED = []
        · simp [h0, h0b, h1, h2, h3]
        · have h3b : (joined_test_plan_instances env (env.product_versions channel version) .FAILED).isEmpty = false := by
            simpa using h3
          refine ⟨by simp [h0, h0b, h1, h2, h3, h3b],
            by simp [h0, h0b, h1, h2, h3, h3b],
            by simp [h0, h0b, h1, h2, h3, h3b],
            by simp [h0, h0b, h1, h2, h3, h3b], ?_⟩
          intro s hsp hsi hsf
          simp [h0b, h1, h2, h3b, Ne.symm hsf]
      · have h2b : (joined_test_plan_instances env (env.product_versions channel version) .IN_PROGRESS).isEmpty = false := by
          simpa using h2
        refine ⟨?_, ?_, ?_, ?_, ?_⟩
        · simp [h0, h0b, h1, h2, h2b]
        · simp [h0, h0b, h1, h2, h2b]
        · simp [h0, h0b, h1, h2, h2b]
        · simp [h0, h0b, h1, h2, h2b]
        · intro s hsp hsi hsf
          simp [h0b, h1, h2b, Ne.symm hsi]
    · have h1b : (joined_test_plan_instances env (env.product_versions channel version) .PASSED).isEmpty = false := by
        simpa using h1
      refine ⟨?_, ?_, ?_, ?_, ?_⟩
      · simp [h0, h0b, h1, h1b]
      · simp [h0, h0b, h1, h1b]
      · simp [h0, h0b, h1, h1b]
      · simp [h0, h0b, h1, h1b]
      · intro s hsp hsi hsf
        simp [h0b, h1b, Ne.symm hsp]

/-- C2 witness: a concrete environment with one product version whose only
test-plan-instances are In Progress resolves to In Progress. -/
theorem c2_resolver_precedence_witness :
    (SQAEnv.product_versions
        { productVersionList := fun _ _ => [⟨"pv-9"⟩]
          testPlanInstanceList := fun _ s => if s = .IN_PROGRESS then ["tpi-9"] else []
          productVersionAdd := fun _ _ _ _ => .ok []
          addonShow := fun _ => .ok []
          addonAdd := fun _ => .ok []
          testPlanInstanceAdd := fun _ _ _ => .ok [] } "1.32/candidate" "ver" ≠ [])
    ∧ current_test_plan_instance_status
        { productVersionList := fun _ _ => [⟨"pv-9"⟩]
          testPlanInstanceList := fun _ s => if s = .IN_PROGRESS then ["tpi-9"] else []
          productVersionAdd := fun _ _ _ _ => .ok []
          addonShow := fun _ => .ok []
          addonAdd := fun _ => .ok []
          testPlanInstanceAdd := fun _ _ _ => .ok [] } "1.32/candidate" "ver"
        = some .IN_PROGRESS :=
  ⟨by decide,
   (c2_resolver_precedence
      { productVersionList := fun _ _ => [⟨"pv-9"⟩]
        testPlanInstanceList := fun _ s => if s = .IN_PROGRESS then ["tpi-9"] else []
        productVersionAdd := fun _ _ _ _ => .ok []
        addonShow := fun _ => .ok []
        addonAdd := fun _ => .ok []
        testPlanInstanceAdd := fun _ _ _ => .ok [] } "1.32/candidate" "ver").2.2.1.mpr
     ⟨by decide, by decide, by decide⟩⟩


/-- C5 counterexample: a candidate channel entry past its dwell time whose
revision differs from the (absent) stable revision, on a track with no stable
channel: trigger condition (1) of the claim holds, yet no proposal is made —
the first-stable gate produces an approval warning instead. -/
theorem c5_counterexample :
    next_risk_of c5_entry = some "stable"
    ∧ IGNORE_TRACKS.contains c5_entry.track = false
    ∧ c5_entry.released_at = some 0
    ∧ alistGet DAYS_TO_STAY_IN_RISK c5_entry.risk = some 5
    ∧ timedelta_days (432000 - 0) ≥ 5
    ∧ chan_revision (channels_dict [c5_entry]) "tracky/candidate"
        ≠ chan_revision (channels_dict [c5_entry]) "tracky/stable"
    ∧ promote_action (channels_dict [c5_entry]) 432000 c5_entry = .ok .warn
    ∧ create_proposal c5_penv [c5_entry] 432000 = .ok ([], [(2, "amd64", "stable")]) := by
  refine ⟨rfl, rfl, rfl, rfl, by decide, by decide, rfl, rfl⟩

/-- C5 (amended): for every channel entry at a non-terminal ladder risk on a
non-ignored track, the promoter proposes promotion exactly when the trigger
fires — (1) released-at is present, the elapsed days reach the per-risk dwell
table, and the current risk's channel revision differs from the next risk's,
OR (2) the risk is edge and the next risk's version differs from edge's —
AND the first-stable gate does not apply (it applies when the next risk is
stable and the track has no stable channel entry; then a warning is emitted
instead of a proposal). -/
theorem c5_promotion_trigger (channels : List (String × ChannelEntry)) (now : Int)
    (ci : ChannelEntry) (next : String)
    (hnext : next_risk_of ci = some next)
    (htrack : IGNORE_TRACKS.contains ci.track = false) :
    promote_action channels now ci = .ok .propose
    ↔ (((∃ t, ci.released_at = some t
            ∧ (∃ d, alistGet DAYS_TO_STAY_IN_RISK ci.risk = some d
                ∧ timedelta_days (now - t) ≥ d)
            ∧ chan_revision channels (ci.track ++ "/" ++ ci.risk)
                ≠ chan_revision channels (ci.track ++ "/" ++ next))
        ∨ (ci.risk = "edge"
            ∧ chan_version channels (ci.track ++ "/" ++ next)
                ≠ chan_version channels (ci.track ++ "/" ++ ci.risk)))
      ∧ ¬(next = "stable" ∧ alistGet channels (ci.track ++ "/stable") = none)) := by
  have htr2 : ci.track ∉ IGNORE_TRACKS := by simpa using htrack
  rcases next_risk_cases ci next hnext with ⟨hr, hn⟩ | ⟨hr, hn⟩ | ⟨hr, hn⟩
  · subst hn
    cases hra : ci.released_at with
    | none =>
      by_cases hver : chan_version channels (ci.track ++ "/" ++ "beta")
          = chan_version channels (ci.track ++ "/" ++ "edge") <;>
        simp [promote_action, py_index, RISK_LEVELS, NEXT_RISK, DAYS_TO_STAY_IN_RISK,
          alistGet, htr2, hra, hr, hver, ge_iff_le]
    | some t =>
      by_cases hdays : (1 : Int) ≤ timedelta_days (now - t) <;>
      by_cases hrev : chan_revision channels (ci.track ++ "/" ++ "edge")
          = chan_revision channels (ci.track ++ "/" ++ "beta") <;>
      by_cases hver : chan_version channels (ci.track ++ "/" ++ "beta")
          = chan_version channels (ci.track ++ "/" ++ "edge") <;>
        simp [promote_action, py_index, RISK_LEVELS, NEXT_RISK, DAYS_TO_STAY_IN_RISK,
          alistGet, htr2, hra, hr, hdays, hrev, hver, ge_iff_le]
  · subst hn
    cases hra : ci.released_at with
    | none =>
      simp [promote_action, py_index, RISK_LEVELS, NEXT_RISK, DAYS_TO_STAY_IN_RISK,
        alistGet, htr2, hra, hr, ge_iff_le]
    | some t =>
      by_cases hdays : (3 : Int) ≤ timedelta_days (now - t) <;>
      by_cases hrev : chan_revision channels (ci.track ++ "/" ++ "beta")
          = chan_revision channels (ci.track ++ "/" ++ "candidate") <;>
        simp [promote_action, py_index, RISK_LEVELS, NEXT_RISK, DAYS_TO_STAY_IN_RISK,
          alistGet, htr2, hra, hr, hdays, hrev, ge_iff_le]
  · subst hn
    cases hra : ci.released_at with
    | none =>
      simp [promote_action, py_index, RISK_LEVELS, NEXT_RISK, DAYS_TO_STAY_IN_RISK,
        alistGet, htr2, hra, hr, ge_iff_le]
    | some t =>
      by_cases hdays : (5 : Int) ≤ timedelta_days (now - t) <;>
      by_cases hrev : chan_revision channels (ci.track ++ "/" ++ "candidate")
          = chan_revision channels (ci.track ++ "/" ++ "stable") <;>
      by_cases hst : alistGet channels (ci.track ++ "/stable") = none <;>
        simp [promote_action, py_index, RISK_LEVELS, NEXT_RISK, DAYS_TO_STAY_IN_RISK,
          alistGet, htr2, hra, hr, hdays, hrev, hst, ge_iff_le]

/-- C5 (amended) witness: an edge revision released exactly one day ago, with
the same version but an older revision waiting in beta, is proposed for beta. -/
theorem c5_promotion_trigger_witness :
    next_risk_of c5w_edge = some "beta"
    ∧ IGNORE_TRACKS.contains c5w_edge.track = false
    ∧ promote_action (channels_dict [c5w_edge, c5w_beta]) 86400 c5w_edge = .ok .propose :=
  ⟨rfl, rfl,
   (c5_promotion_trigger (channels_dict [c5w_edge, c5w_beta]) 86400 c5w_edge "beta"
      rfl rfl).mpr
     ⟨Or.inl ⟨0, rfl, ⟨1, rfl, by decide⟩, by decide⟩, by decide⟩⟩

/-- C6: a channel entry whose next risk is stable, on a non-ignored track with
no stable channel entry, whose promotion trigger fires, gets a SolQA
approval-request warning and contributes no promotion proposal. -/
theorem c6_first_stable_needs_approval (penv : PromoteEnv)
    (channels : List (String × ChannelEntry)) (now : Int) (ci : ChannelEntry)
    (hnext : next_risk_of ci = some "stable")
    (htrack : IGNORE_TRACKS.contains ci.track = false)
    (hstable : alistGet channels (ci.track ++ "/stable") = none)
    (htrigger : (∃ t, ci.released_at = some t
        ∧ (∃ d, alistGet DAYS_TO_STAY_IN_RISK ci.risk = some d
            ∧ timedelta_days (now - t) ≥ d)
        ∧ chan_revision channels (ci.track ++ "/" ++ ci.risk)
            ≠ chan_revision channels (ci.track ++ "/" ++ "stable"))
      ∨ (ci.risk = "edge"
        ∧ chan_version channels (ci.track ++ "/" ++ "stable")
            ≠ chan_version channels (ci.track ++ "/" ++ ci.risk))) :
    promote_action channels now ci = .ok .warn
    ∧ proposal_of_entry penv channels now ci = .ok none
    ∧ warning_of_entry channels now ci
        = .ok (some (ci.revision, ci.architecture, "stable")) := by
  have htr2 : ci.track ∉ IGNORE_TRACKS := by simpa using htrack
  rcases next_risk_cases ci "stable" hnext with ⟨-, hn⟩ | ⟨-, hn⟩ | ⟨hr, -⟩
  · exact absurd hn (by decide)
  · exact absurd hn (by decide)
  rcases htrigger with ⟨t, hra, ⟨d, hd, hdays⟩, hrev⟩ | ⟨hedge, -⟩
  · have hd5 : d = 5 := by
      rw [hr] at hd
      simp [alistGet, DAYS_TO_STAY_IN_RISK] at hd
      exact hd.symm
    subst hd5
    rw [hr] at hrev
    have hact : promote_action channels now ci = .ok .warn := by
      simp [promote_action, py_index, RISK_LEVELS, NEXT_RISK, DAYS_TO_STAY_IN_RISK,
        alistGet, htr2, hra, hr, hrev, hstable, ge_iff_le, hdays]
    refine ⟨hact, ?_, ?_⟩
    · simp [proposal_of_entry, hact]
    · simp [warning_of_entry, hact, hnext]
  · rw [hr] at hedge
    exact absurd hedge (by decide)

/-- C6 witness: the concrete candidate entry of the C5 counterexample. -/
theorem c6_first_stable_needs_approval_witness :
    next_risk_of c5_entry = some "stable"
    ∧ (promote_action (channels_dict [c5_entry]) 432000 c5_entry = .ok .warn
       ∧ proposal_of_entry c5_penv (channels_dict [c5_entry]) 432000 c5_entry = .ok none
       ∧ warning_of_entry (channels_dict [c5_entry]) 432000 c5_entry
           = .ok (some (c5_entry.revision, c5_entry.architecture, "stable"))) :=
  ⟨rfl,
   c6_first_stable_needs_approval c5_penv (channels_dict [c5_entry]) 432000 c5_entry
     rfl rfl (by decide)
     (Or.inl ⟨0, rfl, ⟨5, rfl, by decide⟩, by decide⟩)⟩

/-- C9: when the product-version lookup returns more than one record where
exactly one is expected, `start_release_test` raises an SQAFailure instead of
picking one, and `process_track` catches an SQAFailure raised during track
evaluation, returning PROCESS_CI_FAILED instead of letting the exception
escape into the batch loop. -/
theorem c9_ambiguous_product_versions (env : SQAEnv) :
    (∀ channel base arch revisions version priority,
        (env.product_versions channel version).length > 1 →
        ∃ msg, start_release_test env channel base arch revisions version priority
            = .error (.sqaFailure msg))
    ∧ (∀ chEnv chooseT chooseA chooseB bundle_charms track dry_run bundle
          at_least_one,
        build_bundle chEnv bundle_charms (track ++ "/candidate") (track ++ "/stable")
            = .ok (bundle, at_least_one) →
        bundle.is_testable chooseT = true →
        at_least_one = true →
        (∃ msg, ensure_track_state env (track ++ "/candidate") bundle dry_run chooseA chooseB
            = .error (.sqaFailure msg)) →
        process_track chEnv env chooseT chooseA chooseB bundle_charms track dry_run
            = .ok (.PROCESS_CI_FAILED, [], [])) := by
  constructor
  · intro channel base arch revisions version priority hlen
    have h1 : (env.product_versions channel version).isEmpty = false := by
      cases hpv : env.product_versions channel version with
      | nil => rw [hpv] at hlen; simp at hlen
      | cons x xs => simp
    refine ⟨"the (" ++ channel ++ ", " ++ base ++ ", " ++ arch
      ++ ") is supposed to have only one product version for version " ++ version, ?_⟩
    simp [start_release_test, h1, hlen]
  · intro chEnv chooseT chooseA chooseB bundle_charms track dry_run bundle
      at_least_one hbuild htest hatl hens
    obtain ⟨msg, hens⟩ := hens
    subst hatl
    simp [process_track, hbuild, htest, hens, Bind.bind, Except.bind,
      Functor.map, Except.map]

/-- C9 witness: a concrete scenario where the lookup returns two product
versions, the ambiguity aborts the test start, and the track outcome is
PROCESS_CI_FAILED. -/
theorem c9_ambiguous_product_versions_witness :
    (c9_sqaEnv.product_versions "1.32/candidate" "v").length > 1
    ∧ (∃ msg, start_release_test c9_sqaEnv "1.32/candidate" "20.04" "amd64" [] "v" 1
        = .error (.sqaFailure msg))
    ∧ build_bundle c9_chEnv ["k8s", "k8s-worker"] ("1.32" ++ "/candidate") ("1.32" ++ "/stable")
        = .ok (c9_bundle, true)
    ∧ c9_bundle.is_testable 0 = true
    ∧ (∃ msg, ensure_track_state c9_sqaEnv ("1.32" ++ "/candidate") c9_bundle false 0 0
        = .error (.sqaFailure msg))
    ∧ process_track c9_chEnv c9_sqaEnv 0 0 0 ["k8s", "k8s-worker"] "1.32" false
        = .ok (.PROCESS_CI_FAILED, [], []) := by
  have hens : ensure_track_state c9_sqaEnv ("1.32" ++ "/candidate") c9_bundle false 0 0
      = .error (.sqaFailure "the (1.32/candidate, 20.04, amd64) is supposed to have only one product version for version k8s-operator-k8s-10-k8s-worker-10") := by
    rfl
  refine ⟨by decide, ?_, rfl, by decide, ⟨_, hens⟩, ?_⟩
  · exact (c9_ambiguous_product_versions c9_sqaEnv).1 "1.32/candidate" "20.04" "amd64"
      [] "v" 1 (by decide)
  · exact (c9_ambiguous_product_versions c9_sqaEnv).2 c9_chEnv 0 0 0
      ["k8s", "k8s-worker"] "1.32" false c9_bundle true rfl (by decide) rfl ⟨_, hens⟩

theorem ensure_cell_spec (env : SQAEnv) (channel : String) (bundle : Bundle)
    (arch base : String) (st0 : TrackState) (calls0 : List StartCall) (p0 : Nat)
    (st2 : TrackState) (calls2 : List StartCall) (p2 : Nat)
    (h : ensure_cell env channel bundle false arch st0 calls0 p0 base
        = .ok (st2, calls2, p2)) :
    ResolverConsistent env channel st0 st2
    ∧ (∃ news2, calls2 = calls0 ++ news2 ∧ p2 = p0 + news2.length
        ∧ PriosFrom p0 news2
        ∧ ∀ c ∈ news2, current_test_plan_instance_status env channel c.version = none
            ∧ c.arch = arch ∧ c.channel = channel ∧ c.base = base)
    ∧ CellSpec env channel bundle st2 calls2 arch base := by
  unfold ensure_cell at h
  cases hv : bundle.get_version arch base with
  | none =>
    rw [hv] at h
    simp only [Except.ok.injEq, Prod.mk.injEq] at h
    obtain ⟨rfl, rfl, rfl⟩ := h
    refine ⟨ResolverConsistent.refl env channel st0,
      ⟨[], by simp, by simp, trivial, by simp⟩, ?_⟩
    intro v hv2 hvne
    rw [hv] at hv2
    cases hv2
  | some version =>
    rw [hv] at h
    dsimp only at h
    by_cases hve : version.isEmpty
    · rw [if_pos hve] at h
      simp only [Except.ok.injEq, Prod.mk.injEq] at h
      obtain ⟨rfl, rfl, rfl⟩ := h
      refine ⟨ResolverConsistent.refl env channel st0,
        ⟨[], by simp, by simp, trivial, by simp⟩, ?_⟩
      intro v hv2 hvne
      rw [hv] at hv2
      injection hv2 with hveq
      subst hveq
      rw [hve] at hvne
      cases hvne
    · rw [if_neg hve] at h
      cases hres : current_test_plan_instance_status env channel version with
      | some status =>
        rw [hres] at h
        dsimp only at h
        simp only [Except.ok.injEq, Prod.mk.injEq] at h
        obtain ⟨rfl, rfl, rfl⟩ := h
        refine ⟨?_, ⟨[], by simp, by simp, trivial, by simp⟩, ?_⟩
        · intro v
          by_cases hvv : v = version
          · subst hvv
            refine Or.inr ⟨status, ?_, Or.inr hres⟩
            simp only [TrackState.set_state]
            exact alistGet_set_same _ _ _
          · left
            simp only [TrackState.set_state]
            exact alistGet_set_ne _ _ _ _ hvv
        · intro v hv2 hvne
          rw [hv] at hv2
          injection hv2 with hveq
          subst hveq
          refine ⟨?_, ?_⟩
          · intro hres0
            rw [hres0] at hres
            cases hres
          · intro s hres0
            rw [hres0] at hres
            injection hres with hseq
            subst hseq
            simp only [TrackState.set_state]
            exact alistGet_set_same _ _ _
      | none =>
        rw [hres] at h
        dsimp only at h
        simp only [Bool.false_eq_true, if_false] at h
        cases hstart : start_release_test env channel base arch
            (bundle.get_revisions arch base) version p0 with
        | error e =>
          rw [hstart] at h
          cases h
        | ok u =>
          cases u
          rw [hstart] at h
          dsimp only at h
          simp only [Except.ok.injEq, Prod.mk.injEq] at h
          obtain ⟨rfl, rfl, rfl⟩ := h
          refine ⟨?_, ?_, ?_⟩
          · intro v
            by_cases hvv : v = version
            · subst hvv
              refine Or.inr ⟨.IN_PROGRESS, ?_, Or.inl ⟨hres, rfl⟩⟩
              simp only [TrackState.set_state]
              exact alistGet_set_same _ _ _
            · left
              simp only [TrackState.set_state]
              exact alistGet_set_ne _ _ _ _ hvv
          · refine ⟨[⟨channel, base, arch, bundle.get_revisions arch base, version, p0⟩],
              rfl, by simp, ⟨rfl, trivial⟩, ?_⟩
            intro c hc
            rw [List.mem_singleton] at hc
            subst hc
            exact ⟨hres, rfl, rfl, rfl⟩
          · intro v hv2 hvne
            rw [hv] at hv2
            injection hv2 with hveq
            subst hveq
            refine ⟨?_, ?_⟩
            · intro _
              refine ⟨⟨⟨channel, base, arch, bundle.get_revisions arch base, version, p0⟩,
                ?_, rfl, rfl, rfl⟩, ?_⟩
              · exact List.mem_append_right _ (List.mem_singleton.mpr rfl)
              · simp only [TrackState.set_state]
                exact alistGet_set_same _ _ _
            · intro s hres0
              rw [hres0] at hres
              cases hres

theorem ensure_bases_spec (env : SQAEnv) (channel : String) (bundle : Bundle)
    (arch : String) :
    ∀ (bases : List String) (st0 : TrackState) (calls0 : List StartCall) (p0 : Nat)
      (st : TrackState) (calls : List StartCall) (p : Nat),
      ensure_bases env channel bundle false arch bases st0 calls0 p0
          = .ok (st, calls, p) →
      ∃ news, calls = calls0 ++ news
        ∧ p = p0 + news.length
        ∧ PriosFrom p0 news
        ∧ (∀ c ∈ news, current_test_plan_instance_status env channel c.version = none
            ∧ c.arch = arch ∧ c.channel = channel)
        ∧ ResolverConsistent env channel st0 st
        ∧ (∀ base ∈ bases, CellSpec env channel bundle st calls arch base) := by
  intro bases
  induction bases with
  | nil =>
    intro st0 calls0 p0 st calls p h
    unfold ensure_bases at h
    simp only [Except.ok.injEq, Prod.mk.injEq] at h
    obtain ⟨rfl, rfl, rfl⟩ := h
    exact ⟨[], by simp, by simp, trivial, by simp,
      ResolverConsistent.refl env channel st0, by simp⟩
  | cons base rest ih =>
    intro st0 calls0 p0 st calls p h
    unfold ensure_bases at h
    cases hc : ensure_cell env channel bundle false arch st0 calls0 p0 base with
    | error e =>
      rw [hc] at h
      cases h
    | ok acc2 =>
      obtain ⟨st2, calls2, p2⟩ := acc2
      rw [hc] at h
      dsimp only at h
      obtain ⟨hcons2, ⟨news2, rfl, rfl, hprios2, hprops2⟩, hcell2⟩ :=
        ensure_cell_spec env channel bundle arch base st0 calls0 p0 st2 calls2 p2 hc
      obtain ⟨news3, rfl, rfl, hprios3, hprops3, hcons3, hcells3⟩ :=
        ih st2 (calls0 ++ news2) (p0 + news2.length) st calls p h
      refine ⟨news2 ++ news3, by simp, by simp; omega,
        PriosFrom.append hprios2 hprios3, ?_, hcons2.trans hcons3, ?_⟩
      · intro c hcm
        rcases List.mem_append.mp hcm with hcm | hcm
        · obtain ⟨h1, h2, h3, -⟩ := hprops2 c hcm
          exact ⟨h1, h2, h3⟩
        · exact hprops3 c hcm
      · intro base2 hb2
        rcases List.mem_cons.mp hb2 with rfl | hb2
        · exact hcell2.mono (fun c hcm => List.mem_append_left _ hcm) hcons3
        · exact hcells3 base2 hb2

theorem ensure_archs_spec (env : SQAEnv) (channel : String) (bundle : Bundle)
    (chooseB : Nat) :
    ∀ (archs : List String) (st0 : TrackState) (calls0 : List StartCall) (p0 : Nat)
      (st : TrackState) (calls : List StartCall) (p : Nat),
      ensure_archs env channel bundle false chooseB archs st0 calls0 p0
          = .ok (st, calls, p) →
      ∃ news, calls = calls0 ++ news
        ∧ p = p0 + news.length
        ∧ PriosFrom p0 news
        ∧ (∀ c ∈ news, current_test_plan_instance_status env channel c.version = none
            ∧ c.arch = "amd64" ∧ c.channel = channel)
        ∧ ResolverConsistent env channel st0 st
        ∧ (∀ arch ∈ archs, arch = "amd64" → ∀ bases,
            bundle.get_basesE chooseB = .ok bases →
            ∀ base ∈ bases, CellSpec env channel bundle st calls arch base) := by
  intro archs
  induction archs with
  | nil =>
    intro st0 calls0 p0 st calls p h
    unfold ensure_archs at h
    simp only [Except.ok.injEq, Prod.mk.injEq] at h
    obtain ⟨rfl, rfl, rfl⟩ := h
    exact ⟨[], by simp, by simp, trivial, by simp,
      ResolverConsistent.refl env channel st0, by simp⟩
  | cons arch rest ih =>
    intro st0 calls0 p0 st calls p h
    unfold ensure_archs at h
    by_cases ha : arch = "amd64"
    · rw [if_neg (by simp [ha])] at h
      cases hb : bundle.get_basesE chooseB with
      | error e =>
        rw [hb] at h
        cases h
      | ok bases0 =>
        rw [hb] at h
        dsimp only at h
        cases hensb : ensure_bases env channel bundle false arch bases0 st0 calls0 p0 with
        | error e =>
          rw [hensb] at h
          cases h
        | ok acc2 =>
          obtain ⟨st2, calls2, p2⟩ := acc2
          rw [hensb] at h
          dsimp only at h
          obtain ⟨news2, rfl, rfl, hprios2, hprops2, hcons2, hcells2⟩ :=
            ensure_bases_spec env channel bundle arch bases0 st0 calls0 p0
              st2 calls2 p2 hensb
          obtain ⟨news3, rfl, rfl, hprios3, hprops3, hcons3, hcells3⟩ :=
            ih st2 (calls0 ++ news2) (p0 + news2.length) st calls p h
          refine ⟨news2 ++ news3, by simp, by simp; omega,
            PriosFrom.append hprios2 hprios3, ?_, hcons2.trans hcons3, ?_⟩
          · intro c hcm
            rcases List.mem_append.mp hcm with hcm | hcm
            · obtain ⟨h1, h2, h3⟩ := hprops2 c hcm
              exact ⟨h1, ha ▸ h2, h3⟩
            · exact hprops3 c hcm
          · intro arch2 harch2 hamd bases hbases base hbase
            rcases List.mem_cons.mp harch2 with rfl | harch2
            · have hbeq : bases = bases0 := by
                injection hbases with h2
                exact h2.symm
              subst hbeq
              exact (hcells2 base hbase).mono
                (fun c hcm => List.mem_append_left _ hcm) hcons3
            · exact hcells3 arch2 harch2 hamd bases (hb.trans hbases) base hbase
    · rw [if_pos (by simp [ha])] at h
      obtain ⟨news, rfl, rfl, hprios, hprops, hcons, hcells⟩ :=
        ih st0 calls0 p0 st calls p h
      refine ⟨news, rfl, rfl, hprios, hprops, hcons, ?_⟩
      intro arch2 harch2 hamd bases hbases base hbase
      rcases List.mem_cons.mp harch2 with rfl | harch2
      · exact absurd hamd ha
      · exact hcells arch2 harch2 hamd bases hbases base hbase

/-- C8: in one reconciliation pass with dry_run false, start calls carry
strictly increasing priorities, every start call is for a version whose
resolver answer was none, a version with any resolver status is never
submitted and keeps that status in the state map, and every (amd64, base)
cell with a defined version key is started (and recorded IN_PROGRESS) exactly
when the resolver answers none, recording the returned status as-is
otherwise. -/
theorem c8_single_submission_per_cell (env : SQAEnv) (channel : String)
    (bundle : Bundle) (chooseA chooseB : Nat) (archs bases : List String)
    (st : TrackState) (calls : List StartCall)
    (harchs : bundle.get_archsE chooseA = .ok archs)
    (hbases : bundle.get_basesE chooseB = .ok bases)
    (hrun : ensure_track_state env channel bundle false chooseA chooseB
        = .ok (st, calls)) :
    calls.Pairwise (fun c1 c2 => c1.priority < c2.priority)
    ∧ (∀ c ∈ calls, current_test_plan_instance_status env channel c.version = none
        ∧ c.arch = "amd64" ∧ c.channel = channel)
    ∧ (∀ v s, current_test_plan_instance_status env channel v = some s →
        (∀ c ∈ calls, c.version ≠ v)
        ∧ (∀ s2, alistGet st.state_map v = some s2 → s2 = s))
    ∧ (∀ arch ∈ archs, arch = "amd64" →
        ∀ base ∈ bases, CellSpec env channel bundle st calls arch base) := by
  unfold ensure_track_state at hrun
  rw [harchs] at hrun
  dsimp only at hrun
  cases houter : ensure_archs env channel bundle false chooseB archs ⟨[]⟩ [] 1 with
  | error e =>
    rw [houter] at hrun
    cases hrun
  | ok acc =>
    obtain ⟨st2, calls2, p2⟩ := acc
    rw [houter] at hrun
    dsimp only at hrun
    simp only [Except.ok.injEq, Prod.mk.injEq] at hrun
    obtain ⟨rfl, rfl⟩ := hrun
    obtain ⟨news, hcallseq, -, hprios, hprops, hcons, hcells⟩ :=
      ensure_archs_spec env channel bundle chooseB archs ⟨[]⟩ [] 1 st2 calls2 p2 houter
    rw [List.nil_append] at hcallseq
    subst hcallseq
    refine ⟨hprios.pairwise_lt, hprops, ?_, ?_⟩
    · intro v s hres
      constructor
      · intro c hc hveq
        obtain ⟨hcr, -, -⟩ := hprops c hc
        rw [hveq, hres] at hcr
        cases hcr
      · intro s2 hlook
        rcases hcons v with heq | ⟨s3, hs3, hcase⟩
        · rw [heq] at hlook
          simp [alistGet] at hlook
        · rw [hlook] at hs3
          injection hs3 with hs3
          rcases hcase with ⟨hn, -⟩ | hcase
          · rw [hres] at hn
            cases hn
          · rw [hres] at hcase
            injection hcase with hc2
            rw [hs3, ← hc2]
    · intro arch ha hamd base hbase
      exact hcells arch ha hamd bases hbases base hbase

/-- C8 witness: a concrete two-cell run where only the untested 20.04 cell is
submitted, at priority 1, and the already-passed 22.04 cell is recorded
PASSED without a submission. -/
theorem c8_single_submission_per_cell_witness :
    c8_bundle.get_archsE 0 = .ok ["amd64"]
    ∧ c8_bundle.get_basesE 0 = .ok ["20.04", "22.04"]
    ∧ ensure_track_state c8_env "1.32/candidate" c8_bundle false 0 0
        = .ok (c8_st, c8_calls)
    ∧ (c8_calls.Pairwise (fun c1 c2 => c1.priority < c2.priority)
       ∧ (∀ c ∈ c8_calls,
            current_test_plan_instance_status c8_env "1.32/candidate" c.version = none
            ∧ c.arch = "amd64" ∧ c.channel = "1.32/candidate")
       ∧ (∀ v s, current_test_plan_instance_status c8_env "1.32/candidate" v = some s →
            (∀ c ∈ c8_calls, c.version ≠ v)
            ∧ (∀ s2, alistGet c8_st.state_map v = some s2 → s2 = s))
       ∧ (∀ arch ∈ ["amd64"], arch = "amd64" →
            ∀ base ∈ ["20.04", "22.04"],
              CellSpec c8_env "1.32/candidate" c8_bundle c8_st c8_calls arch base)) :=
  ⟨rfl, rfl, rfl,
   c8_single_submission_per_cell c8_env "1.32/candidate" c8_bundle 0 0
     ["amd64"] ["20.04", "22.04"] c8_st c8_calls rfl rfl rfl⟩
